import Mathlib

/-
Verification of `src/lib/python/secondlife/cli/utils.py` (module
`secondlife.cli.utils`) against its natural-language specification.

The module is embedded shallowly:
 * JSON-like metadata documents become an inductive `JValue` together with an
   association-list document (Python dicts preserve insertion order, which the
   association list mirrors).
 * Python exceptions become an `Except PyError` result; `sys.exit(1)` becomes
   an `Except` error carrying the exit code.
 * Generators become functions returning the list of yielded elements, plus
   (where an exception can interrupt the stream) the terminating exception.
 * External collaborators that are not part of this repository fragment
   (`find_cell`, `new_cell`, `load_metadata`, the compiled jq program, the
   `parsedatetime` calendar) are parameters of the embedded functions.
-/

set_option autoImplicit false

namespace SecondLife

/-- Values of a JSON-like metadata document.  Python `set` objects of strings
(the representation of cell tags in memory) are a distinct constructor,
because the code treats them specially (they are not JSON-serializable). -/
inductive JValue where
  | null
  | bool (b : Bool)
  | str (s : String)
  | num (n : Int)
  | strSet (s : Finset String)
  | list (xs : List JValue)
  | obj (kvs : List (String × JValue))

/-- A metadata document: a top-level mapping from keys to values.

Modelled from the spec: the `Metadata` class lives in `secondlife.celldb`,
which is not part of this repository fragment.  The spec describes it as "a
JSON-like mapping queryable by path expressions (e.g. `/tags`, `/id`), with a
`default=` fallback on missing keys"; `metadata.data` is the underlying dict. -/
structure Metadata where
  data : List (String × JValue)

/-- Modelled from the spec: path lookup with a default on missing keys.  A
top-level path `/key` selects the entry `key` of the underlying mapping. -/
def Metadata.get (m : Metadata) (path : String) (dflt : JValue) : JValue :=
  match m.data.lookup (path.drop 1) with
  | some v => v
  | none => dflt

/-- Python exceptions (and process exits) that the embedded code can raise. -/
inductive PyError where
  | typeErr      -- TypeError, e.g. `set <= non-set`
  | stopIter     -- StopIteration from the jq program's first()
  | nameErr      -- NameError: unbound local variable
  | loadErr      -- any exception raised by load_metadata
  deriving DecidableEq

/-- The selection configuration object built from CLI flags (spec section 3):
`all_cells`, `identifiers`, `tags`, `metadata_jq`, `timestamp`.  The compiled
jq program `metadata_jq` is external; it is embedded as the function from an
input document to the list of results the program emits on it. -/
structure Config where
  all_cells : Bool
  identifiers : List String
  tags : Finset String
  metadata_jq : Option (List (String × JValue) → List JValue)
  timestamp : String

/-- Python truthiness of a metadata value (`if metadata.get('/id'):`). -/
def pyTruthy : JValue → Bool
  | .null => false
  | .bool b => b
  | .str s => s ≠ ""
  | .num n => n ≠ 0
  | .strSet s => s.card ≠ 0
  | .list xs => !xs.isEmpty
  | .obj kvs => !kvs.isEmpty

/-- The Python expression `config.tags <= value`: subset test when `value` is
a set, `TypeError` otherwise. -/
def pySubsetLE (a : Finset String) : JValue → Except PyError Bool
  | .strSet s => .ok (decide (a ⊆ s))
  | _ => .error .typeErr

/-- The Python expression `list(v)`: a set of strings becomes a list of its
elements (the set's iteration order is unspecified; the embedding fixes the
sorted order), a list stays itself, a string becomes its characters, anything
else raises `TypeError`. -/
def pyList : JValue → Except PyError JValue
  | .strSet s => .ok (.list ((s.sort (· ≤ ·)).map .str))
  | .list xs => .ok (.list xs)
  | .str s => .ok (.list (s.toList.map (fun ch => .str (String.mk [ch]))))
  | _ => .error .typeErr

/-- Assignment `d[k] = v` for a key already present: the entry keeps its
position in the dict's insertion order. -/
def dictSet (d : List (String × JValue)) (k : String) (v : JValue) :
    List (String × JValue) :=
  d.map (fun kv => if kv.1 = k then (k, v) else kv)

/-- Lines 36-38 of utils.py: `m_copy = copy.copy(metadata.data)` followed by
`if 'tags' in m_copy: m_copy['tags'] = list(m_copy['tags'])`.  The shallow
copy of a dict is, in value semantics, the dict itself. -/
def pyListTags (d : List (String × JValue)) :
    Except PyError (List (String × JValue)) :=
  match d.lookup "tags" with
  | none => .ok d
  | some v =>
    match pyList v with
    | .error e => .error e
    | .ok v2 => .ok (dictSet d "tags" v2)

/-- `jq_program.input(doc).first()` given the program's result stream: the
first result, or `StopIteration` when the program produced none. -/
def jqFirst : List JValue → Except PyError JValue
  | [] => .error .stopIter
  | x :: _ => .ok x

/-- The Python test `res is True`: identity with the boolean `True`. -/
def isTrue : JValue → Bool
  | .bool true => true
  | _ => false

/-- Filesystem paths are opaque to this module; a string suffices. -/
abbrev PyPath := String

/-- `include_cell` (utils.py lines 27-47), embedded in state-passing style:
the second component of the result is the metadata object as it stands after
the call (every Python assignment the function performs is to the local copy
`m_copy`, never to `metadata`, so the embedding never rebinds it).  The first
component is the returned boolean, or the exception raised. -/
def include_cell_st (path : PyPath) (metadata : Metadata) (config : Config) :
    Except PyError Bool × Metadata :=
  match pySubsetLE config.tags (metadata.get "/tags" (.strSet ∅)) with
  | .error e => (.error e, metadata)
  | .ok sub =>
    if !sub then (.ok false, metadata)
    else
      match config.metadata_jq with
      | none => (.ok true, metadata)
      | some q =>
        match pyListTags metadata.data with
        | .error e => (.error e, metadata)
        | .ok m_copy =>
          match jqFirst (q m_copy) with
          | .error e => (.error e, metadata)
          | .ok res =>
            if !isTrue res then (.ok false, metadata)
            else (.ok true, metadata)

/-- `include_cell` as a plain function from inputs to returned value. -/
def include_cell (path : PyPath) (metadata : Metadata) (config : Config) :
    Except PyError Bool :=
  (include_cell_st path metadata config).1

/-- Python's `str.strip()`: remove whitespace from both ends. -/
def pyStrip (s : String) : String :=
  String.mk
    (((s.toList.dropWhile Char.isWhitespace).reverse.dropWhile
      Char.isWhitespace).reverse)

/-- The lines a `-` argument reads from standard input (utils.py lines 18-23):
each line stripped of surrounding whitespace, blank lines skipped. -/
def stdinIdentifiers (stdin : List String) : List String :=
  (stdin.map pyStrip).filter (fun l => l.length ≠ 0)

/-- `cell_identifiers` (utils.py lines 14-25).  `stdin` is the stream of
lines standard input still holds; reading it (on a `-` identifier) consumes
it to end-of-stream, so later identifiers see an exhausted stream. -/
def cell_identifiers : List String → List String → List String
  | [], _ => []
  | id :: rest, stdin =>
    if id = "-" then stdinIdentifiers stdin ++ cell_identifiers rest []
    else id :: cell_identifiers rest stdin

/-- The `all_cells` walk branch of `selected_cells` (utils.py lines 51-64),
given the `meta.json` files the glob finds, paired with the outcome of
`load_metadata` on each.  The `try`/`except Exception` block spans the load,
the `/id` check, `include_cell` and the yield, so any exception inside it is
logged and the walk moves to the next file. -/
def walkBranch (config : Config) :
    List (PyPath × Except PyError Metadata) → List (PyPath × Metadata)
  | [] => []
  | (_, .error _) :: rest => walkBranch config rest
  | (p, .ok m) :: rest =>
    (if pyTruthy (m.get "/id" .null) then
      match include_cell p m config with
      | .ok true => [(p, m)]
      | _ => []
    else []) ++ walkBranch config rest

/-- The identifier-resolution branch of `selected_cells` (utils.py lines
66-75).  `findCell` embeds the external collaborator `find_cell`, returning
`none` for the `(None, None)` miss.  On a miss the source executes
`new_cell(id=line)`, but `line` is not a name bound anywhere in
`selected_cells` (it is a local of the `cell_identifiers` generator), so the
statement raises `NameError` before `new_cell` can be called; `newCell` is
therefore an unused parameter of the branch.  The result is the list of
pairs the generator yields before the first uncaught exception, together
with that exception when one occurs. -/
def identBranch (findCell : String → Option (PyPath × Metadata))
    (newCell : String → PyPath × Metadata) (config : Config) :
    List String → List (PyPath × Metadata) × Option PyError
  | [] => ([], none)
  | id :: rest =>
    match findCell id with
    | none => ([], some .nameErr)
    | some (p, m) =>
      match include_cell p m config with
      | .error e => ([], some e)
      | .ok true =>
        let r := identBranch findCell newCell config rest
        ((p, m) :: r.1, r.2)
      | .ok false => identBranch findCell newCell config rest

/-- `selected_cells` (utils.py lines 49-75): the walk branch when
`config.all_cells` is set, followed by the identifier-resolution branch over
`cell_identifiers`. -/
def selected_cells (findCell : String → Option (PyPath × Metadata))
    (newCell : String → PyPath × Metadata)
    (files : List (PyPath × Except PyError Metadata)) (stdin : List String)
    (config : Config) : List (PyPath × Metadata) × Option PyError :=
  let walked := if config.all_cells then walkBranch config files else []
  let r := identBranch findCell newCell config
    (cell_identifiers config.identifiers stdin)
  (walked ++ r.1, r.2)

/-- `parsedatetime.pdtContext`: an accuracy bitmask; two contexts are equal
when their accuracies are (its `__eq__` compares `accuracy`). -/
structure PdtContext where
  accuracy : Nat
  deriving DecidableEq

/-- `pdtContext.ACU_NOW` (bit 8 of the accuracy mask). -/
def ACU_NOW : Nat := 256

/-- `pdtContext.ACU_DATE = ACU_YEAR | ACU_MONTH | ACU_WEEK | ACU_DAY`
(bits 0-3 of the accuracy mask). -/
def ACU_DATE : Nat := 15

/-- `pdtContext.hasDate`: the context contains a date unit. -/
def PdtContext.hasDate (c : PdtContext) : Bool :=
  c.accuracy &&& ACU_DATE ≠ 0

/-- `measurement_ts` (utils.py lines 77-87).  `parse` embeds
`parsedatetime.Calendar().parse(·, version=VERSION_CONTEXT_STYLE)` — the
parsed local time struct (of abstract type `α`) and its context — and
`mktime` embeds `time.mktime`.  `sys.exit(1)` is the `.error 1` outcome. -/
def measurement_ts {α : Type} (parse : String → α × PdtContext)
    (mktime : α → Int) (config : Config) : Except Nat Int :=
  let tp := (parse config.timestamp).1
  let context := (parse config.timestamp).2
  if context.hasDate = false ∧ context ≠ ⟨ACU_NOW⟩ then .error 1
  else .ok (mktime tp)

/-- `AddSet.__call__` (utils.py lines 90-92): insert the occurrence's value
into the destination set attribute. -/
def AddSet (dest : Finset String) (values : String) : Finset String :=
  insert values dest

/-- The cell's tag set: the `/tags` entry of the metadata when it is a
string set, and the empty set otherwise (in particular when absent). -/
def cellTags (m : Metadata) : Finset String :=
  match m.data.lookup "tags" with
  | some (.strSet s) => s
  | _ => ∅

/-- A walked file whose `load_metadata` call succeeded. -/
def loadOk : PyPath × Except PyError Metadata → Bool :=
  fun pr => match pr.2 with
    | .ok _ => true
    | .error _ => false

/-- C9: the AddSet CLI action accumulates repeated flag occurrences into a
set: `--tag prod --tag web` yields the set of both values, applying the
action twice with the same value equals applying it once, and swapping two
occurrences yields an equal set. -/
theorem AddSet_accumulates_into_set :
    AddSet (AddSet ∅ "prod") "web" = ({"prod", "web"} : Finset String) ∧
      (∀ (s : Finset String) (v : String), AddSet (AddSet s v) v = AddSet s v) ∧
      (∀ (s : Finset String) (v w : String),
        AddSet (AddSet s v) w = AddSet (AddSet s w) v) := by
  refine ⟨?_, ?_, ?_⟩
  · simp [AddSet]
    exact Finset.pair_comm "web" "prod"
  · intro s v
    simp [AddSet]
  · intro s v w
    simp [AddSet, Finset.Insert.comm]

/-- C4: `measurement_ts` exits the process with a non-zero code exactly when
the parsed context carries no date component and is not exactly the special
"now" context; in every other case it returns the parsed local time
converted to epoch seconds by `time.mktime`. -/
theorem measurement_ts_exit_iff {α : Type} (parse : String → α × PdtContext)
    (mktime : α → Int) (config : Config) :
    ((∃ n, measurement_ts parse mktime config = .error n ∧ n ≠ 0) ↔
      ((parse config.timestamp).2.hasDate = false ∧
        (parse config.timestamp).2 ≠ ⟨ACU_NOW⟩)) ∧
    (¬ ((parse config.timestamp).2.hasDate = false ∧
        (parse config.timestamp).2 ≠ ⟨ACU_NOW⟩) →
      measurement_ts parse mktime config =
        .ok (mktime (parse config.timestamp).1)) := by
  by_cases h : (parse config.timestamp).2.hasDate = false ∧
      (parse config.timestamp).2 ≠ (⟨ACU_NOW⟩ : PdtContext)
  · constructor
    · simp only [measurement_ts]
      rw [if_pos h]
      exact ⟨fun _ => h, fun _ => ⟨1, rfl, one_ne_zero⟩⟩
    · exact fun hn => absurd h hn
  · constructor
    · simp only [measurement_ts]
      rw [if_neg h]
      exact ⟨fun ⟨n, hn, _⟩ => Except.noConfusion hn, fun hc => absurd hc h⟩
    · intro _
      simp only [measurement_ts]
      rw [if_neg h]

/-- C4 witness: a parse outcome with accuracy mask 0 (no date units, not the
"now" context) makes `measurement_ts` exit with code 1. -/
theorem measurement_ts_exit_iff_witness :
    ∃ n, measurement_ts (fun _ => ((), PdtContext.mk 0)) (fun _ => (0 : Int))
        ⟨false, [], ∅, none, "gibberish"⟩ = .error n ∧ n ≠ 0 :=
  (measurement_ts_exit_iff (fun _ => ((), PdtContext.mk 0)) (fun _ => (0 : Int))
    ⟨false, [], ∅, none, "gibberish"⟩).1.mpr ⟨by decide, by decide⟩

/-- C3 (code bug): with a configuration selecting the single identifier
"cell-1" and a cell store in which no cell exists, `selected_cells` raises
`NameError` (the fallback statement `new_cell(id=line)` references the
unbound name `line`) and yields nothing, instead of creating a new cell for
the identifier currently being resolved. -/
theorem selected_cells_new_cell_name_error :
    selected_cells (fun _ => none) (fun i => (i, ⟨[]⟩)) [] []
        ⟨false, ["cell-1"], ∅, none, "now"⟩ = ([], some .nameErr) := by
  rfl

/-- C2 counterexample: with an empty tag filter and a compiled query that
produces no results, `include_cell` raises `StopIteration` — it does not
return `false` as the claim states for the no-result case. -/
theorem include_cell_no_result_raises :
    include_cell "p" ⟨[]⟩ ⟨false, [], ∅, some (fun _ => []), ""⟩
        = .error .stopIter ∧
      include_cell "p" ⟨[]⟩ ⟨false, [], ∅, some (fun _ => []), ""⟩
        ≠ .ok false := by
  constructor
  · rfl
  · intro h
    rw [show include_cell "p" ⟨[]⟩ ⟨false, [], ∅, some (fun _ => []), ""⟩
          = .error .stopIter from rfl] at h
    exact Except.noConfusion h

/-- C8: `include_cell` never mutates the original metadata object — the
state-passing embedding returns it unchanged for every input, and its
returned value is exactly `include_cell`'s result (the set-to-list
conversion of the tags field happens only on the copy handed to the
query). -/
theorem include_cell_st_frame (p : PyPath) (m : Metadata) (c : Config) :
    (include_cell_st p m c).2 = m ∧
      (include_cell_st p m c).1 = include_cell p m c := by
  refine ⟨?_, rfl⟩
  unfold include_cell_st
  repeat' split
  all_goals rfl

/-- C1: `include_cell` returns true only if the configured tag set is a
subset of the cell's tag set (a document without a `tags` entry having the
empty tag set); when it is not a subset the cell is excluded with result
false.  The hypothesis states that the document's `tags` entry, when
present, is a string set, as the data model prescribes. -/
theorem include_cell_tag_subset (p : PyPath) (m : Metadata) (c : Config)
    (h : m.data.lookup "tags" = none ∨
      ∃ s, m.data.lookup "tags" = some (JValue.strSet s)) :
    (include_cell p m c = .ok true → c.tags ⊆ cellTags m) ∧
    (¬ c.tags ⊆ cellTags m → include_cell p m c = .ok false) := by
  have hget : m.get "/tags" (JValue.strSet ∅) = JValue.strSet (cellTags m) := by
    have hkey : ("/tags").drop 1 = "tags" := rfl
    rcases h with hn | ⟨s, hs⟩
    · simp [Metadata.get, cellTags, hkey, hn]
    · simp [Metadata.get, cellTags, hkey, hs]
  by_cases hsub : c.tags ⊆ cellTags m
  · exact ⟨fun _ => hsub, fun hns => absurd hsub hns⟩
  · have hfalse : include_cell p m c = .ok false := by
      unfold include_cell include_cell_st
      rw [hget]
      simp [pySubsetLE, hsub]
    refine ⟨fun h1 => ?_, fun _ => hfalse⟩
    rw [hfalse] at h1
    simp at h1

/-- C1 witness: configured tags `{"prod"}` against cell tags `{"web"}` — not
a subset, so the cell is excluded with result false. -/
theorem include_cell_tag_subset_witness :
    ((⟨[("tags", JValue.strSet {"web"})]⟩ : Metadata).data.lookup "tags"
        = none ∨
      ∃ s, (⟨[("tags", JValue.strSet {"web"})]⟩ : Metadata).data.lookup "tags"
        = some (JValue.strSet s)) ∧
      include_cell "p" ⟨[("tags", JValue.strSet {"web"})]⟩
        ⟨false, [], {"prod"}, none, ""⟩ = .ok false :=
  ⟨Or.inr ⟨{"web"}, rfl⟩,
    (include_cell_tag_subset "p" ⟨[("tags", JValue.strSet {"web"})]⟩
      ⟨false, [], {"prod"}, none, ""⟩ (Or.inr ⟨{"web"}, rfl⟩)).2 (by decide)⟩

/-- C2 (amended): when a query is configured and the tag check passes,
`include_cell` returns true exactly when the first query result is the
boolean true, and returns false on any other first result (false, null,
non-boolean); but when the query produces no result at all, `first()`
raises `StopIteration` instead of excluding the cell. -/
theorem include_cell_jq_first (p : PyPath) (m : Metadata) (c : Config)
    (q : List (String × JValue) → List JValue) (d : List (String × JValue))
    (hq : c.metadata_jq = some q)
    (htags : pySubsetLE c.tags (m.get "/tags" (JValue.strSet ∅)) = .ok true)
    (hd : pyListTags m.data = .ok d) :
    (q d = [] → include_cell p m c = .error .stopIter) ∧
    (∀ r rs, q d = r :: rs → include_cell p m c = .ok (isTrue r)) := by
  constructor
  · intro h0
    simp only [include_cell, include_cell_st, htags, hq, hd, h0]
    rfl
  · intro r rs hr
    simp only [include_cell, include_cell_st, htags, hq, hd, hr]
    cases hit : isTrue r <;> simp [jqFirst, hit]

/-- C2 witness: a query whose only result is the boolean true includes the
cell. -/
theorem include_cell_jq_first_witness :
    (⟨false, [], ∅, some (fun _ => [JValue.bool true]), ""⟩ : Config).metadata_jq
        = some (fun _ => [JValue.bool true]) ∧
      pySubsetLE (∅ : Finset String)
        ((⟨[]⟩ : Metadata).get "/tags" (JValue.strSet ∅)) = .ok true ∧
      pyListTags (⟨[]⟩ : Metadata).data = .ok [] ∧
      include_cell "p" ⟨[]⟩ ⟨false, [], ∅, some (fun _ => [JValue.bool true]), ""⟩
        = .ok true :=
  ⟨rfl, rfl, rfl,
    (include_cell_jq_first "p" ⟨[]⟩
        ⟨false, [], ∅, some (fun _ => [JValue.bool true]), ""⟩
        (fun _ => [JValue.bool true]) [] rfl rfl rfl).2
      (JValue.bool true) [] rfl⟩

/-- With standard input already exhausted, every remaining `-` identifier
contributes nothing and every other identifier yields itself. -/
theorem cell_identifiers_empty_stdin (ids : List String) :
    cell_identifiers ids [] = ids.filter (fun i => i ≠ "-") := by
  induction ids with
  | nil => rfl
  | cons id rest ih =>
    by_cases h : id = "-"
    · subst h
      simp [cell_identifiers, stdinIdentifiers, ih]
    · simp [cell_identifiers, h, ih]

/-- C6: `cell_identifiers` yields, in order and without deduplication, each
configured identifier itself, except that a `-` reads the lines standard
input still holds — trimmed, blank lines dropped — and leaves the stream
exhausted for any later identifier; and on stdin "a\n\n b \n" a single `-`
yields exactly ["a", "b"]. -/
theorem cell_identifiers_spec :
    (∀ (ids stdin : List String), cell_identifiers ids stdin =
      ids.takeWhile (fun i => i ≠ "-") ++
        (if "-" ∈ ids then
          stdinIdentifiers stdin ++
            ((ids.dropWhile (fun i => i ≠ "-")).tail.filter (fun i => i ≠ "-"))
        else [])) ∧
    cell_identifiers ["-"] ["a\n", "\n", " b \n"] = ["a", "b"] := by
  constructor
  · intro ids stdin
    induction ids with
    | nil => rfl
    | cons id rest ih =>
      by_cases h : id = "-"
      · subst h
        simp [cell_identifiers, List.takeWhile, List.dropWhile,
          cell_identifiers_empty_stdin]
      · have hne : ("-" = id ∨ "-" ∈ rest) ↔ ("-" ∈ rest) :=
          or_iff_right (fun hh => h hh.symm)
        simp [cell_identifiers, h, List.takeWhile, List.dropWhile, ih, hne]
  · rfl

/-- The full-tree walk ignores files whose metadata fails to load: filtering
them away first changes nothing. -/
theorem walkBranch_filter_loadOk (c : Config)
    (files : List (PyPath × Except PyError Metadata)) :
    walkBranch c (files.filter loadOk) = walkBranch c files := by
  induction files with
  | nil => rfl
  | cons f rest ih =>
    obtain ⟨p, r⟩ := f
    cases r with
    | error e => simpa [loadOk, List.filter_cons, walkBranch] using ih
    | ok m => simpa [loadOk, List.filter_cons, walkBranch] using ih

/-- C5: during the full-tree walk a metadata load failure only skips that
cell — `selected_cells` produces exactly the same output as it would have
on the well-formed files alone, for every mix of malformed and well-formed
`meta.json` files. -/
theorem selected_cells_tolerates_load_failures
    (findCell : String → Option (PyPath × Metadata))
    (newCell : String → PyPath × Metadata)
    (files : List (PyPath × Except PyError Metadata)) (stdin : List String)
    (config : Config) :
    selected_cells findCell newCell (files.filter loadOk) stdin config =
      selected_cells findCell newCell files stdin config := by
  unfold selected_cells
  rw [walkBranch_filter_loadOk]

/-- C7: the full-tree walk branch only yields metadata documents that carry
an `id` entry — a loaded document without one is never yielded. -/
theorem walkBranch_requires_id (c : Config)
    (files : List (PyPath × Except PyError Metadata)) (p : PyPath)
    (m : Metadata) (h : (p, m) ∈ walkBranch c files) :
    ((m.data.lookup "id").isSome) = true := by
  induction files with
  | nil => simp [walkBranch] at h
  | cons f rest ih =>
    obtain ⟨p1, r⟩ := f
    cases r with
    | error e =>
      exact ih (by simpa [walkBranch] using h)
    | ok m1 =>
      rw [walkBranch] at h
      rcases List.mem_append.mp h with h1 | h2
      · by_cases hid : pyTruthy (m1.get "/id" JValue.null) = true
        · rw [if_pos hid] at h1
          have hm : m = m1 := by
            cases hic : include_cell p1 m1 c with
            | error e => rw [hic] at h1; simp at h1
            | ok b =>
              cases b with
              | false => rw [hic] at h1; simp at h1
              | true =>
                rw [hic] at h1
                rw [List.mem_singleton] at h1
                exact (Prod.mk.injEq _ _ _ _ ▸ h1).2
          subst hm
          cases hlk : m.data.lookup "id" with
          | none =>
            have hkey : ("/id").drop 1 = "id" := rfl
            rw [Metadata.get, hkey, hlk] at hid
            simp [pyTruthy] at hid
          | some v => simp
        · rw [if_neg hid] at h1
          simp at h1
      · exact ih h2

/-- C7 witness: a walked file whose metadata has an `id` entry is yielded,
and the theorem recovers that the entry is present. -/
theorem walkBranch_requires_id_witness :
    (("p", (⟨[("id", JValue.str "c1")]⟩ : Metadata)) ∈
        walkBranch ⟨true, [], ∅, none, ""⟩
          [("p", .ok ⟨[("id", JValue.str "c1")]⟩)]) ∧
      (((⟨[("id", JValue.str "c1")]⟩ : Metadata).data.lookup "id").isSome)
        = true := by
  have hmem : ("p", (⟨[("id", JValue.str "c1")]⟩ : Metadata)) ∈
      walkBranch ⟨true, [], ∅, none, ""⟩
        [("p", .ok ⟨[("id", JValue.str "c1")]⟩)] := by
    rw [show walkBranch ⟨true, [], ∅, none, ""⟩
          [("p", .ok ⟨[("id", JValue.str "c1")]⟩)]
        = [("p", (⟨[("id", JValue.str "c1")]⟩ : Metadata))] from rfl]
    exact List.mem_singleton.mpr rfl
  exact ⟨hmem, walkBranch_requires_id _ _ _ _ hmem⟩

/-- C10: the presence-of-id check is applied exclusively in the `all_cells`
walk branch.  A cell resolved through the identifier branch is filtered only
by `include_cell`: when its metadata has no `id` entry but passes the
filter, the identifier branch yields it, while the walk branch, given the
same metadata as a loaded file, yields nothing. -/
theorem id_check_only_in_walk (c : Config)
    (fc : String → Option (PyPath × Metadata))
    (nc : String → PyPath × Metadata) (p : PyPath) (m : Metadata)
    (i : String) (hfc : fc i = some (p, m))
    (hid : m.data.lookup "id" = none)
    (hinc : include_cell p m c = .ok true) :
    identBranch fc nc c [i] = ([(p, m)], none) ∧
      walkBranch c [(p, .ok m)] = [] := by
  constructor
  · simp [identBranch, hfc, hinc]
  · have hkey : ("/id").drop 1 = "id" := rfl
    simp [walkBranch, Metadata.get, hkey, hid, pyTruthy]

/-- C10 witness: a metadata document with no entries at all (in particular
no id) passes the trivial filter and is yielded by the identifier branch,
while the walk branch drops it. -/
theorem id_check_only_in_walk_witness :
    ((fun _ => some ("p", (⟨[]⟩ : Metadata))) "x" = some ("p", (⟨[]⟩ : Metadata)) ∧
      (⟨[]⟩ : Metadata).data.lookup "id" = none ∧
      include_cell "p" ⟨[]⟩ ⟨false, [], ∅, none, ""⟩ = .ok true) ∧
      identBranch (fun _ => some ("p", (⟨[]⟩ : Metadata)))
          (fun i => (i, ⟨[]⟩)) ⟨false, [], ∅, none, ""⟩ ["x"]
        = ([("p", (⟨[]⟩ : Metadata))], none) ∧
      walkBranch ⟨false, [], ∅, none, ""⟩ [("p", .ok ⟨[]⟩)] = [] :=
  ⟨⟨rfl, rfl, rfl⟩,
    id_check_only_in_walk ⟨false, [], ∅, none, ""⟩
      (fun _ => some ("p", (⟨[]⟩ : Metadata))) (fun i => (i, ⟨[]⟩))
      "p" ⟨[]⟩ "x" rfl rfl rfl⟩

end SecondLife
